import Mathlib

/-!
Verification of the token-budget and request-dispatch subsystem of the
repository (src/utils/token_utils.py and src/utils/llm_client.py).

The tokenizer itself (tiktoken) is an external library: it is modelled as an
abstract `Encoding` (a pair of encode/decode functions), and every theorem
about the fitter quantifies over the encoding.  A concrete per-character
encoding `encChar` is used for witnesses and counterexamples.
-/

namespace TokenUtils

/-- Abstract model of a tiktoken encoding: `encode` segments a string into
token units, `decode` maps token units back to text. -/
structure Encoding where
  encode : String → List Nat
  decode : List Nat → String

/-- A chat message, `{role: ..., content: ...}` (src/utils/token_utils.py
works with OpenAI-style message dicts). -/
structure Message where
  role : String
  content : String
deriving DecidableEq, Repr

/-- Result shape of `count_messages_tokens` (token_utils.py lines 108-112). -/
structure TokenCounts where
  input_tokens : Nat
  context_tokens : Nat
  estimated_total : Nat
deriving DecidableEq, Repr

/-- Embedding of `count_messages_tokens` (token_utils.py lines 66-112):
4 tokens of per-message overhead plus the encoded content length for each
message, context strings counted separately, and a flat overhead of 3. -/
def count_messages_tokens (enc : Encoding) (messages : List Message)
    (context_strs : Option (List String)) : TokenCounts :=
  let inputTokens := messages.foldl (fun acc m => acc + 4 + (enc.encode m.content).length) 0
  let contextTokens := match context_strs with
    | some ctxs => ctxs.foldl (fun acc c => acc + (enc.encode c).length) 0
    | none => 0
  { input_tokens := inputTokens
    context_tokens := contextTokens
    estimated_total := inputTokens + contextTokens + 3 }

/-- Embedding of `estimate_prompt_tokens` (token_utils.py lines 158-177). -/
def estimate_prompt_tokens (enc : Encoding) (messages : List Message)
    (context_strs : Option (List String)) : Nat :=
  (count_messages_tokens enc messages context_strs).estimated_total

/-- Metadata dict returned by `fit_within_context`; Python returns dicts with
varying key sets, so every key that is not always present is an `Option`. -/
structure FitMeta where
  overflow : Bool
  original_tokens : Option Nat := none
  strategy : Option String := none
  messages_removed : Option Nat := none
  action_required : Option String := none
deriving DecidableEq, Repr

/-- Python list slicing `l[:n]` for a possibly negative `n`: a nonnegative
stop keeps the first `n` elements; a negative stop keeps all but the last
`-n` elements (clamped at zero). -/
def pySliceTo {α : Type} (l : List α) (n : Int) : List α :=
  if 0 ≤ n then l.take n.toNat else l.take ((l.length : Int) + n).toNat

/-- The `available_tokens` computation of the truncate branch
(token_utils.py lines 232-234): `max_context_tokens - (4*(len(system_msgs)+1) + 3)`,
as a Python int (may be negative). -/
def availableFor (sysCount : Nat) (maxT : Nat) : Int :=
  (maxT : Int) - (4 * ((sysCount : Int) + 1) + 3)

/-- Content truncation of the last remaining non-system message
(token_utils.py lines 229-242): encode the content, and if it has more
tokens than `available_tokens`, keep `tokens[:available_tokens]` (Python
slice semantics), decode, and append the literal marker. -/
def contentTruncate (enc : Encoding) (sysCount : Nat) (maxT : Nat) (last : Message) : Message :=
  let available := availableFor sysCount maxT
  let tokens := enc.encode last.content
  if ((tokens.length : Int)) > available then
    { last with content := enc.decode (pySliceTo tokens available) ++ "... [truncated]" }
  else last

/-- The message-dropping loop of the truncate branch (token_utils.py lines
219-222): pop the oldest non-system message while more than one remains and
the recomputed estimate still exceeds the budget. -/
def dropOldest (enc : Encoding) (sys : List Message) (ctx : Option (List String))
    (maxT : Nat) : List Message → List Message
  | [] => []
  | [m] => [m]
  | m :: m2 :: rest =>
    if estimate_prompt_tokens enc (sys ++ (m :: m2 :: rest)) ctx > maxT then
      dropOldest enc sys ctx maxT (m2 :: rest)
    else m :: m2 :: rest

/-- The post-loop content-truncation phase (token_utils.py lines 224-242):
if the surviving messages are still over budget and at least one non-system
message remains, rewrite the last one via `contentTruncate`. -/
def truncatePhase (enc : Encoding) (sys : List Message) (ctx : Option (List String))
    (maxT : Nat) (others : List Message) : List Message :=
  if estimate_prompt_tokens enc (sys ++ others) ctx > maxT then
    match others.getLast? with
    | none => others
    | some last => others.dropLast ++ [contentTruncate enc sys.length maxT last]
  else others

/-- Embedding of `fit_within_context` (token_utils.py lines 180-268). -/
def fit_within_context (enc : Encoding) (messages : List Message) (maxT : Nat)
    (strategy : String) (context_strs : Option (List String)) :
    List Message × Option (List String) × FitMeta :=
  let current := estimate_prompt_tokens enc messages context_strs
  if current ≤ maxT then
    (messages, context_strs, { overflow := false, original_tokens := some current })
  else if strategy = "truncate" then
    let sys := messages.filter (fun m => m.role == "system")
    let others0 := messages.filter (fun m => m.role != "system")
    let others1 := dropOldest enc sys context_strs maxT others0
    let others2 := truncatePhase enc sys context_strs maxT others1
    (sys ++ others2, context_strs,
      { overflow := true
        original_tokens := some current
        strategy := some "truncate"
        messages_removed := some (messages.length - sys.length - others2.length) })
  else if strategy = "summarize" then
    (messages, context_strs,
      { overflow := true
        original_tokens := some current
        strategy := some "summarize"
        action_required := some "Use overflow_summarize prompt" })
  else
    (messages, context_strs, { overflow := false })

/-- Number of non-system messages in a list. -/
def countNonSystem (l : List Message) : Nat :=
  (l.filter (fun m => m.role != "system")).length

/-- Concrete per-character encoding used for witnesses: each character is one
token (its code point); decoding is the inverse.  This is an injective,
round-tripping tokenizer. -/
def encChar : Encoding where
  encode s := s.data.map Char.toNat
  decode l := String.mk (l.map Char.ofNat)

/-- Embedding of `reconcile_usage`'s result shape (token_utils.py lines
128-135); a field value `none` is Python `None` (unset). -/
structure UsageRecord where
  input_tokens_est : Nat
  context_tokens_est : Nat
  total_est : Nat
  prompt_tokens_actual : Option Int
  completion_tokens_actual : Option Int
  total_tokens_actual : Option Int
deriving DecidableEq, Repr

/-- Python `v or 0` on an int-or-None value: `None` and `0` are falsy. -/
def pyOrZero (v : Option Int) : Int :=
  match v with
  | none => 0
  | some n => if n = 0 then 0 else n

/-- Embedding of `reconcile_usage` (token_utils.py lines 115-155).  The
provider usage dict is a key/value list; a value `none` is Python `None`.
`none` for the whole dict is an absent usage; `some []` is an empty dict
(falsy in Python, so also skipped). -/
def reconcile_usage (estimate : TokenCounts)
    (provider_usage : Option (List (String × Option Int))) : UsageRecord :=
  let base : UsageRecord :=
    { input_tokens_est := estimate.input_tokens
      context_tokens_est := estimate.context_tokens
      total_est := estimate.estimated_total
      prompt_tokens_actual := none
      completion_tokens_actual := none
      total_tokens_actual := none }
  match provider_usage with
  | none => base
  | some u =>
    if u = [] then base
    else if (u.lookup "prompt_tokens").isSome then
      { base with
        prompt_tokens_actual := (u.lookup "prompt_tokens").getD none
        completion_tokens_actual :=
          match u.lookup "completion_tokens" with
          | some v => v
          | none => some 0
        total_tokens_actual :=
          match u.lookup "total_tokens" with
          | some v => v
          | none => some 0 }
    else if (u.lookup "promptTokenCount").isSome then
      let p := pyOrZero ((u.lookup "promptTokenCount").getD none)
      let c := pyOrZero ((u.lookup "candidatesTokenCount").getD none)
      { base with
        prompt_tokens_actual := some p
        completion_tokens_actual := some c
        total_tokens_actual := some (p + c) }
    else base

end TokenUtils

namespace LLMClient

/-- Outcome of one provider call attempt, as seen by the retry loop of
`LLMClient.chat` (src/utils/llm_client.py lines 179-240): either a response
or an exception carrying a message string. -/
inductive AttemptResult where
  | ok (text : String)
  | err (msg : String)
deriving DecidableEq, Repr

/-- Whether `sub` occurs as a contiguous run inside `s` (character lists). -/
def listContains (sub : List Char) : List Char → Bool
  | [] => sub.isEmpty
  | c :: rest => sub.isPrefixOf (c :: rest) || listContains sub rest

/-- Substring containment, Python's `sub in s`. -/
def containsSub (s sub : String) : Bool :=
  listContains sub.data s.data

/-- Python `str.lower()`, character by character. -/
def lowerStr (s : String) : String :=
  String.mk (s.data.map Char.toLower)

/-- Embedding of `LLMClient._is_retryable_error` (llm_client.py lines
108-128): the lowercased exception message is probed for rate-limit, 5xx,
timeout and context-overflow markers. -/
def is_retryable_error (msg : String) : Bool :=
  let s := lowerStr msg
  if containsSub s "429" || containsSub s "rate limit" then true
  else if containsSub s "500" || containsSub s "502" || containsSub s "503" ||
      containsSub s "504" || containsSub s "server error" then true
  else if containsSub s "timeout" || containsSub s "timed out" then true
  else if containsSub s "context" && (containsSub s "length" || containsSub s "too long") then true
  else false

/-- The context-overflow test of `chat`'s error handler (llm_client.py lines
229-232): "context" together with "length" or "too long" in the lowercased
message. -/
def isContextOverflowMsg (msg : String) : Bool :=
  let s := lowerStr msg
  containsSub s "context" && (containsSub s "length" || containsSub s "too long")

/-- The message of the ValueError raised for an unhandled context overflow
(llm_client.py lines 235-237). -/
def overflowSignalMessage : String :=
  "Context window exceeded. Use overflow_summarize.v1 prompt."

/-- Terminal outcome of `LLMClient.chat`: a successful return, the distinct
summarization ValueError chained to its cause, or propagation of the original
error.  `attemptsMade` counts provider attempts performed. -/
inductive ChatOutcome where
  | success (attemptsMade : Nat) (retryCount : Nat) (text : String)
  | overflowSignal (message : String) (cause : String) (attemptsMade : Nat)
  | raised (msg : String) (attemptsMade : Nat)
deriving DecidableEq, Repr

/-- Number of provider attempts an outcome records. -/
def ChatOutcome.attempts : ChatOutcome → Nat
  | .success n _ _ => n
  | .overflowSignal _ _ n => n
  | .raised _ n => n

/-- The retry loop of `LLMClient.chat` (llm_client.py lines 179-240), from a
given attempt index.  `provider` is the oracle giving each attempt's result;
`overflowHandled` is the pre-flight flag set at lines 157-168.  On failure:
retry when attempts remain and the error is retryable; otherwise raise the
summarization signal for an unhandled context overflow, else re-raise.  The
`retry_count` variable equals the attempt index throughout (it is incremented
exactly once per loop continuation). -/
def chatFrom (provider : Nat → AttemptResult) (maxRetries : Nat)
    (overflowHandled : Bool) (attempt : Nat) : ChatOutcome :=
  match provider attempt with
  | .ok t => .success (attempt + 1) attempt t
  | .err e =>
    if h : attempt < maxRetries ∧ is_retryable_error e = true then
      chatFrom provider maxRetries overflowHandled (attempt + 1)
    else if isContextOverflowMsg e = true ∧ overflowHandled = false then
      .overflowSignal overflowSignalMessage e (attempt + 1)
    else .raised e (attempt + 1)
termination_by maxRetries - attempt
decreasing_by exact Nat.sub_lt_sub_left h.1 (Nat.lt_succ_self attempt)

/-- The full retry loop of `LLMClient.chat`, starting at attempt 0. -/
def chat (provider : Nat → AttemptResult) (maxRetries : Nat)
    (overflowHandled : Bool) : ChatOutcome :=
  chatFrom provider maxRetries overflowHandled 0

/-- The three providers dispatched by `chat` (llm_client.py lines 184-189). -/
inductive Provider where
  | openai
  | google
  | groq
deriving DecidableEq, Repr

/-- Python `v or ""` on a string-or-None value: `None` and `""` are falsy. -/
def pyOrEmpty (v : Option String) : String :=
  match v with
  | none => ""
  | some s => if s = "" then "" else s

/-- The `text` field each provider shim puts in its normalized response, as a
Python value (`none` is Python None).  `_call_openai` (line 279) and
`_call_groq` (line 370) guard the possibly-absent content with `or ""`;
`_call_google` (line 342) returns `response.text` unguarded, and the Gemini
SDK yields None when the response carries no content. -/
def callText : Provider → Option String → Option String
  | .openai, content => some (pyOrEmpty content)
  | .groq, content => some (pyOrEmpty content)
  | .google, text => text

end LLMClient

namespace TokenUtils

/-- Unfolding of the truncate branch of `fit_within_context` when the input
is over budget. -/
theorem fit_truncate_eq (enc : Encoding) (messages : List Message) (maxT : Nat)
    (ctx : Option (List String))
    (h : maxT < estimate_prompt_tokens enc messages ctx) :
    fit_within_context enc messages maxT "truncate" ctx =
      (messages.filter (fun m => m.role == "system") ++
         truncatePhase enc (messages.filter (fun m => m.role == "system")) ctx maxT
           (dropOldest enc (messages.filter (fun m => m.role == "system")) ctx maxT
             (messages.filter (fun m => m.role != "system"))),
       ctx,
       { overflow := true
         original_tokens := some (estimate_prompt_tokens enc messages ctx)
         strategy := some "truncate"
         messages_removed := some (messages.length -
           (messages.filter (fun m => m.role == "system")).length -
           (truncatePhase enc (messages.filter (fun m => m.role == "system")) ctx maxT
             (dropOldest enc (messages.filter (fun m => m.role == "system")) ctx maxT
               (messages.filter (fun m => m.role != "system")))).length) }) := by
  unfold fit_within_context
  rw [if_neg (by omega), if_pos rfl]

/-- The drop loop stops only when at most one non-system message remains or
the estimate fits the budget. -/
theorem dropOldest_post (enc : Encoding) (sys : List Message)
    (ctx : Option (List String)) (maxT : Nat) (l : List Message) :
    (dropOldest enc sys ctx maxT l).length ≤ 1 ∨
      estimate_prompt_tokens enc (sys ++ dropOldest enc sys ctx maxT l) ctx ≤ maxT := by
  induction l with
  | nil => left; simp [dropOldest]
  | cons m t ih =>
    cases t with
    | nil => left; simp [dropOldest]
    | cons m2 rest =>
      by_cases h : estimate_prompt_tokens enc (sys ++ (m :: m2 :: rest)) ctx > maxT
      · rw [dropOldest, if_pos h]
        exact ih
      · rw [dropOldest, if_neg h]
        right; omega

/-- The drop loop removes a prefix: its result is `l.drop k` for some `k`,
`k` never swallows the whole (nonempty) list, and every drop happened while
the estimate still exceeded the budget. -/
theorem dropOldest_drop (enc : Encoding) (sys : List Message)
    (ctx : Option (List String)) (maxT : Nat) (l : List Message) :
    ∃ k, dropOldest enc sys ctx maxT l = l.drop k ∧ k ≤ l.length ∧
      (l ≠ [] → k < l.length) ∧
      (∀ j < k, maxT < estimate_prompt_tokens enc (sys ++ l.drop j) ctx) := by
  induction l with
  | nil => exact ⟨0, by simp [dropOldest], by simp, by simp, by omega⟩
  | cons m t ih =>
    cases t with
    | nil =>
      refine ⟨0, by simp [dropOldest], by simp, ?_, by omega⟩
      intro _; simp
    | cons m2 rest =>
      by_cases h : estimate_prompt_tokens enc (sys ++ (m :: m2 :: rest)) ctx > maxT
      · obtain ⟨k, hk, hk1, hk2, hk3⟩ := ih
        refine ⟨k + 1, ?_, ?_, ?_, ?_⟩
        · rw [dropOldest, if_pos h, hk]; rfl
        · simp at hk1 ⊢; omega
        · intro _
          have := hk2 (by simp)
          simp at this ⊢; omega
        · intro j hj
          cases j with
          | zero => simpa using h
          | succ j' =>
            have := hk3 j' (by omega)
            simpa using this
      · refine ⟨0, ?_, by simp, ?_, by omega⟩
        · rw [dropOldest, if_neg h]; rfl
        · intro _; simp

/-- Content truncation preserves the message role. -/
theorem contentTruncate_role (enc : Encoding) (sysCount maxT : Nat) (m : Message) :
    (contentTruncate enc sysCount maxT m).role = m.role := by
  simp only [contentTruncate]
  split <;> rfl

/-- A list with `getLast? = some a` decomposes as `dropLast ++ [a]`. -/
theorem getLast?_decomp {α : Type} {l : List α} {a : α} (h : l.getLast? = some a) :
    l = l.dropLast ++ [a] := by
  induction l with
  | nil => simp at h
  | cons x t ih =>
    cases t with
    | nil => simp_all
    | cons y rest =>
      rw [List.getLast?_cons_cons] at h
      have := ih h
      calc x :: y :: rest = x :: (y :: rest) := rfl
        _ = x :: ((y :: rest).dropLast ++ [a]) := by rw [← this]
        _ = (x :: y :: rest).dropLast ++ [a] := by simp

/-- The content-truncation phase preserves the list length. -/
theorem truncatePhase_length (enc : Encoding) (sys : List Message)
    (ctx : Option (List String)) (maxT : Nat) (l : List Message) :
    (truncatePhase enc sys ctx maxT l).length = l.length := by
  unfold truncatePhase
  split
  · cases hl : l.getLast? with
    | none => rfl
    | some last =>
      have hd := getLast?_decomp hl
      simp only []
      rw [List.length_append]
      conv_rhs => rw [hd]
      simp
  · rfl

/-- The content-truncation phase changes at most the last element. -/
theorem truncatePhase_dropLast (enc : Encoding) (sys : List Message)
    (ctx : Option (List String)) (maxT : Nat) (l : List Message) :
    (truncatePhase enc sys ctx maxT l).dropLast = l.dropLast := by
  unfold truncatePhase
  split
  · cases hl : l.getLast? with
    | none => rfl
    | some last => simp [List.dropLast_concat]
  · rfl

/-- The content-truncation phase preserves every message's role. -/
theorem truncatePhase_map_role (enc : Encoding) (sys : List Message)
    (ctx : Option (List String)) (maxT : Nat) (l : List Message) :
    (truncatePhase enc sys ctx maxT l).map Message.role = l.map Message.role := by
  unfold truncatePhase
  split
  · cases hl : l.getLast? with
    | none => rfl
    | some last =>
      have hd := getLast?_decomp hl
      simp only []
      conv_rhs => rw [hd]
      simp [contentTruncate_role]
  · rfl

/-- Filtering a list splits its length between matching and non-matching
elements. -/
theorem length_filter_partition {α : Type} (p : α → Bool) (l : List α) :
    (l.filter p).length + (l.filter (fun a => !(p a))).length = l.length := by
  induction l with
  | nil => rfl
  | cons a t ih => by_cases h : p a <;> simp [List.filter, h] <;> omega

end TokenUtils

namespace TokenUtils

/-- C7: for every encoding, message set, strategy, and optional context
strings whose estimated total is at most the budget, `fit_within_context`
returns the input messages and context strings unchanged together with
`overflow = false` (the fit is a no-op below budget). -/
theorem C7_noop_fit (enc : Encoding) (messages : List Message) (maxT : Nat)
    (strategy : String) (ctx : Option (List String))
    (h : estimate_prompt_tokens enc messages ctx ≤ maxT) :
    fit_within_context enc messages maxT strategy ctx =
      (messages, ctx,
        { overflow := false
          original_tokens := some (estimate_prompt_tokens enc messages ctx) }) := by
  unfold fit_within_context
  rw [if_pos h]

/-- Witness for C7 at a concrete input. -/
theorem C7_noop_fit_witness :
    estimate_prompt_tokens encChar [⟨"user", "hi"⟩] none ≤ 50 ∧
    fit_within_context encChar [⟨"user", "hi"⟩] 50 "summarize" none =
      ([⟨"user", "hi"⟩], none, { overflow := false, original_tokens := some 9 }) :=
  ⟨by decide, C7_noop_fit encChar [⟨"user", "hi"⟩] 50 "summarize" none (by decide)⟩

/-- C8: for every strategy other than "truncate" and "summarize", even when
the estimated total exceeds the budget, `fit_within_context` returns the
input messages and context strings with `overflow = false` (a silent no-op
rather than an error). -/
theorem C8_unknown_strategy (enc : Encoding) (messages : List Message)
    (maxT : Nat) (strategy : String) (ctx : Option (List String))
    (h : maxT < estimate_prompt_tokens enc messages ctx)
    (h1 : strategy ≠ "truncate") (h2 : strategy ≠ "summarize") :
    fit_within_context enc messages maxT strategy ctx =
      (messages, ctx, { overflow := false }) := by
  unfold fit_within_context
  rw [if_neg (by omega), if_neg h1, if_neg h2]

/-- Witness for C8 at a concrete input with strategy "drop". -/
theorem C8_unknown_strategy_witness :
    35 < estimate_prompt_tokens encChar [⟨"user", "aaaaaaaaaaaaaaaaaaaaaaaaaaaaaa"⟩] none ∧
    fit_within_context encChar [⟨"user", "aaaaaaaaaaaaaaaaaaaaaaaaaaaaaa"⟩] 35 "drop" none =
      ([⟨"user", "aaaaaaaaaaaaaaaaaaaaaaaaaaaaaa"⟩], none, { overflow := false }) :=
  ⟨by decide,
   C8_unknown_strategy encChar [⟨"user", "aaaaaaaaaaaaaaaaaaaaaaaaaaaaaa"⟩] 35 "drop" none
     (by decide) (by decide) (by decide)⟩

/-- C6: `reconcile_usage` always populates the three estimated fields, and
dispatches on the usage shape: an OpenAI-shaped dict with
`prompt_tokens = 10`, `completion_tokens = 5`, `total_tokens = 15` is copied
directly to the actual fields; a Gemini-shaped dict with
`promptTokenCount = 10`, `candidatesTokenCount = 5` yields actual fields
`(10, 5, 15)` with the total computed as a sum; an empty or absent usage
dict leaves all three actual fields unset. -/
theorem C6_reconcile_shapes (est : TokenCounts) :
    (∀ u, (reconcile_usage est u).input_tokens_est = est.input_tokens ∧
          (reconcile_usage est u).context_tokens_est = est.context_tokens ∧
          (reconcile_usage est u).total_est = est.estimated_total) ∧
    reconcile_usage est
        (some [("prompt_tokens", some 10), ("completion_tokens", some 5),
               ("total_tokens", some 15)]) =
      { input_tokens_est := est.input_tokens
        context_tokens_est := est.context_tokens
        total_est := est.estimated_total
        prompt_tokens_actual := some 10
        completion_tokens_actual := some 5
        total_tokens_actual := some 15 } ∧
    reconcile_usage est
        (some [("promptTokenCount", some 10), ("candidatesTokenCount", some 5)]) =
      { input_tokens_est := est.input_tokens
        context_tokens_est := est.context_tokens
        total_est := est.estimated_total
        prompt_tokens_actual := some 10
        completion_tokens_actual := some 5
        total_tokens_actual := some 15 } ∧
    reconcile_usage est (some []) =
      { input_tokens_est := est.input_tokens
        context_tokens_est := est.context_tokens
        total_est := est.estimated_total
        prompt_tokens_actual := none
        completion_tokens_actual := none
        total_tokens_actual := none } ∧
    reconcile_usage est none =
      { input_tokens_est := est.input_tokens
        context_tokens_est := est.context_tokens
        total_est := est.estimated_total
        prompt_tokens_actual := none
        completion_tokens_actual := none
        total_tokens_actual := none } := by
  refine ⟨?_, rfl, rfl, rfl, rfl⟩
  intro u
  cases u with
  | none => exact ⟨rfl, rfl, rfl⟩
  | some l =>
    by_cases h1 : l = [] <;>
      by_cases h2 : (List.lookup "prompt_tokens" l).isSome <;>
      by_cases h3 : (List.lookup "promptTokenCount" l).isSome <;>
      simp [reconcile_usage, h1, h2, h3]

end TokenUtils

namespace LLMClient

/-- The retry loop never performs more attempts than `maxRetries + 1` when
started at an attempt index that is still within budget. -/
theorem chatFrom_attempts_le (provider : Nat → AttemptResult) (maxRetries : Nat)
    (oh : Bool) :
    ∀ n attempt, maxRetries - attempt = n → attempt ≤ maxRetries →
      (chatFrom provider maxRetries oh attempt).attempts ≤ maxRetries + 1 := by
  intro n
  induction n with
  | zero =>
    intro attempt hn hle
    have heq : attempt = maxRetries := by omega
    unfold chatFrom
    cases hp : provider attempt with
    | ok t => simp [ChatOutcome.attempts]; omega
    | err e =>
      simp only []
      rw [dif_neg (by rintro ⟨h1, _⟩; omega)]
      split_ifs <;> simp [ChatOutcome.attempts] <;> omega
  | succ n ih =>
    intro attempt hn hle
    unfold chatFrom
    cases hp : provider attempt with
    | ok t => simp [ChatOutcome.attempts]; omega
    | err e =>
      simp only []
      by_cases h : attempt < maxRetries ∧ is_retryable_error e = true
      · rw [dif_pos h]
        exact ih (attempt + 1) (by omega) (by omega)
      · rw [dif_neg h]
        split_ifs <;> simp [ChatOutcome.attempts] <;> omega

/-- C2: for every sequence of provider results, every `max_retries`, and
either value of the pre-flight overflow flag, `chat` performs at most
`max_retries + 1` provider attempts before returning a successful outcome or
raising. -/
theorem C2_retry_budget (provider : Nat → AttemptResult) (maxRetries : Nat)
    (oh : Bool) :
    (chat provider maxRetries oh).attempts ≤ maxRetries + 1 :=
  chatFrom_attempts_le provider maxRetries oh maxRetries 0 (by omega) (Nat.zero_le _)

/-- A context-overflow message is classified as retryable by
`_is_retryable_error` (the context clause is one of its disjuncts). -/
theorem contextOverflow_retryable (e : String)
    (h : isContextOverflowMsg e = true) : is_retryable_error e = true := by
  simp only [isContextOverflowMsg] at h
  simp only [is_retryable_error]
  split_ifs <;> simp_all

/-- C3: when a provider attempt fails with a context-overflow error and no
retries remain, `chat`'s error handler raises the distinct "context window
exceeded, apply summarization" ValueError chained to the underlying error if
the pre-flight fit did not flag overflow (`overflow_handled = false`);
if the pre-flight fit already reported `overflow_handled = true`, the
original error propagates unchanged. -/
theorem C3_overflow_signal (provider : Nat → AttemptResult) (maxRetries : Nat)
    (oh : Bool) (attempt : Nat) (e : String)
    (hp : provider attempt = .err e)
    (hctx : isContextOverflowMsg e = true)
    (hfinal : maxRetries ≤ attempt) :
    chatFrom provider maxRetries oh attempt =
      (if oh then ChatOutcome.raised e (attempt + 1)
       else ChatOutcome.overflowSignal overflowSignalMessage e (attempt + 1)) := by
  unfold chatFrom
  rw [hp]
  simp only []
  rw [dif_neg (by rintro ⟨h1, _⟩; omega)]
  cases oh with
  | false => rw [if_pos ⟨hctx, rfl⟩]; rfl
  | true =>
    rw [if_neg (by rintro ⟨_, h⟩; exact absurd h (by decide))]
    rfl

/-- Witness for C3: a single-attempt client hitting a context-length error
with the pre-flight flag unset raises the summarization signal chained to
the original message. -/
theorem C3_overflow_signal_witness :
    (fun _ : Nat => AttemptResult.err "Context length exceeded") 0 =
        AttemptResult.err "Context length exceeded" ∧
    isContextOverflowMsg "Context length exceeded" = true ∧
    (0 : Nat) ≤ 0 ∧
    chatFrom (fun _ => AttemptResult.err "Context length exceeded") 0 false 0 =
      ChatOutcome.overflowSignal overflowSignalMessage "Context length exceeded" 1 :=
  ⟨rfl, by decide, Nat.le_refl 0,
   C3_overflow_signal (fun _ => AttemptResult.err "Context length exceeded") 0 false 0
     "Context length exceeded" rfl (by decide) (Nat.le_refl 0)⟩

end LLMClient

namespace LLMClient

/-- C9 (evaluation at the failing input): the OpenAI and Groq shims guard a
missing content with `or ""` and so always yield a string, but the Google
shim passes `response.text` through unguarded, so a Gemini response with no
content yields None rather than the empty string. -/
theorem C9_text_normalization :
    callText Provider.openai none = some "" ∧
    callText Provider.groq none = some "" ∧
    callText Provider.google none = none :=
  ⟨rfl, rfl, rfl⟩

end LLMClient

namespace TokenUtils

/-- Every element surviving the drop loop was already among the input
messages. -/
theorem mem_dropOldest {enc : Encoding} {sys : List Message}
    {ctx : Option (List String)} {maxT : Nat} {l : List Message} {m : Message}
    (hm : m ∈ dropOldest enc sys ctx maxT l) : m ∈ l := by
  obtain ⟨k, hk, -, -, -⟩ := dropOldest_drop enc sys ctx maxT l
  rw [hk] at hm
  exact List.mem_of_mem_drop hm

/-- The content-truncation phase preserves the non-system classification of
every element. -/
theorem truncatePhase_nonSystem (enc : Encoding) (sys : List Message)
    (ctx : Option (List String)) (maxT : Nat) (l : List Message)
    (h0 : ∀ m ∈ l, (m.role == "system") = false) :
    ∀ m ∈ truncatePhase enc sys ctx maxT l, (m.role == "system") = false := by
  intro m hm
  have hmap := truncatePhase_map_role enc sys ctx maxT l
  have hmem : m.role ∈ (truncatePhase enc sys ctx maxT l).map Message.role :=
    List.mem_map_of_mem _ hm
  rw [hmap] at hmem
  obtain ⟨m1, hm1, hrole⟩ := List.mem_map.mp hmem
  rw [← hrole]
  exact h0 m1 hm1

/-- Members of the non-system partition are not system messages. -/
theorem roleNe_of_mem_filter {messages : List Message} {m : Message}
    (hm : m ∈ messages.filter (fun m => m.role != "system")) :
    (m.role == "system") = false := by
  have h := (List.mem_filter.mp hm).2
  simp only [bne_iff_ne, ne_eq] at h
  exact beq_eq_false_iff_ne.mpr h

/-- Counting non-system messages in a system-partition prefix followed by an
all-non-system suffix counts exactly the suffix. -/
theorem countNonSystem_sys_append (messages : List Message) (others2 : List Message)
    (h2 : ∀ m ∈ others2, (m.role == "system") = false) :
    countNonSystem (messages.filter (fun m => m.role == "system") ++ others2) =
      others2.length := by
  unfold countNonSystem
  rw [List.filter_append]
  have hsys : (messages.filter (fun m => m.role == "system")).filter
      (fun m => m.role != "system") = [] := by
    rw [List.filter_eq_nil_iff]
    intro a ha
    have h := (List.mem_filter.mp ha).2
    simp [bne, h]
  have hoth : others2.filter (fun m => m.role != "system") = others2 := by
    rw [List.filter_eq_self]
    intro a ha
    have h := h2 a ha
    simp [bne, h]
  rw [hsys, hoth]
  simp

end TokenUtils

namespace TokenUtils

/-- C1 (amended): for every encoding, message list, token budget and optional
context strings whose pre-call estimated total exceeds the budget,
truncate-strategy fitting returns a message set whose recomputed estimated
total is at most the budget, or at most one non-system message remains
(whether or not its content was truncated). -/
theorem C1_truncate_budget_or_floor (enc : Encoding) (messages : List Message)
    (maxT : Nat) (ctx : Option (List String))
    (h : maxT < estimate_prompt_tokens enc messages ctx) :
    estimate_prompt_tokens enc (fit_within_context enc messages maxT "truncate" ctx).1 ctx ≤ maxT ∨
    countNonSystem (fit_within_context enc messages maxT "truncate" ctx).1 ≤ 1 := by
  rw [fit_truncate_eq enc messages maxT ctx h]
  dsimp only
  rcases dropOldest_post enc (messages.filter (fun m => m.role == "system")) ctx maxT
      (messages.filter (fun m => m.role != "system")) with hlen | hfit
  · right
    have hnon2 : ∀ m ∈ truncatePhase enc (messages.filter (fun m => m.role == "system")) ctx maxT
        (dropOldest enc (messages.filter (fun m => m.role == "system")) ctx maxT
          (messages.filter (fun m => m.role != "system"))),
        (m.role == "system") = false := by
      apply truncatePhase_nonSystem
      intro m hm
      exact roleNe_of_mem_filter (mem_dropOldest hm)
    rw [countNonSystem_sys_append _ _ hnon2, truncatePhase_length]
    exact hlen
  · left
    have heq : truncatePhase enc (messages.filter (fun m => m.role == "system")) ctx maxT
        (dropOldest enc (messages.filter (fun m => m.role == "system")) ctx maxT
          (messages.filter (fun m => m.role != "system"))) =
        dropOldest enc (messages.filter (fun m => m.role == "system")) ctx maxT
          (messages.filter (fun m => m.role != "system")) := by
      unfold truncatePhase
      rw [if_neg (by omega)]
    rw [heq]
    exact hfit

/-- Witness for the amended C1 at a concrete over-budget input. -/
theorem C1_truncate_budget_or_floor_witness :
    5 < estimate_prompt_tokens encChar [⟨"user", "aaaaaaaaaa"⟩] none ∧
    (estimate_prompt_tokens encChar
        (fit_within_context encChar [⟨"user", "aaaaaaaaaa"⟩] 5 "truncate" none).1 none ≤ 5 ∨
     countNonSystem (fit_within_context encChar [⟨"user", "aaaaaaaaaa"⟩] 5 "truncate" none).1 ≤ 1) :=
  ⟨by decide, C1_truncate_budget_or_floor encChar [⟨"user", "aaaaaaaaaa"⟩] 5 none (by decide)⟩

/-- Counterexample to C1 as stated: a large system message with one small
non-system message.  The fit is over budget, exactly one non-system message
remains, yet its content is returned untouched (no truncation happened) and
the recomputed total still exceeds the budget. -/
theorem C1_counterexample :
    20 < estimate_prompt_tokens encChar
        [⟨"system", "aaaaaaaaaaaaaaaaaaaaaaaaaaaaaa"⟩, ⟨"user", "hi"⟩] none ∧
    (fit_within_context encChar
        [⟨"system", "aaaaaaaaaaaaaaaaaaaaaaaaaaaaaa"⟩, ⟨"user", "hi"⟩] 20 "truncate" none).1 =
      [⟨"system", "aaaaaaaaaaaaaaaaaaaaaaaaaaaaaa"⟩, ⟨"user", "hi"⟩] ∧
    ¬ (estimate_prompt_tokens encChar
        (fit_within_context encChar
          [⟨"system", "aaaaaaaaaaaaaaaaaaaaaaaaaaaaaa"⟩, ⟨"user", "hi"⟩] 20 "truncate" none).1 none ≤ 20) ∧
    countNonSystem (fit_within_context encChar
        [⟨"system", "aaaaaaaaaaaaaaaaaaaaaaaaaaaaaa"⟩, ⟨"user", "hi"⟩] 20 "truncate" none).1 = 1 := by
  decide

/-- Unfolding of the content-truncation phase when the survivors are still
over budget and a last non-system message exists. -/
theorem truncatePhase_eq_of_over (enc : Encoding) (sys : List Message)
    (ctx : Option (List String)) (maxT : Nat) (l : List Message) (last : Message)
    (h1 : maxT < estimate_prompt_tokens enc (sys ++ l) ctx)
    (h2 : l.getLast? = some last) :
    truncatePhase enc sys ctx maxT l =
      l.dropLast ++ [contentTruncate enc sys.length maxT last] := by
  unfold truncatePhase
  rw [if_pos h1, h2]

/-- Unfolding of `contentTruncate` when the content has more tokens than the
available budget. -/
theorem contentTruncate_eq_of_long (enc : Encoding) (sysCount maxT : Nat)
    (last : Message)
    (h : availableFor sysCount maxT < ((enc.encode last.content).length : Int)) :
    contentTruncate enc sysCount maxT last =
      { last with content :=
          enc.decode (pySliceTo (enc.encode last.content) (availableFor sysCount maxT)) ++
            "... [truncated]" } := by
  simp only [contentTruncate]
  rw [if_pos h]

/-- C4 (amended): when truncate-strategy fitting is still over budget after
the drop loop and the last surviving non-system message has more tokens than
`available = maxTokens - (4*(systemCount+1) + 3)`, its content is replaced by
`tokens[:available]` under Python slice semantics — the first `available`
token-units when `available ≥ 0`, but all except the last `-available`
token-units when `available < 0` — decoded back to text with the literal
marker "... [truncated]" appended; the content becomes just the marker only
when at most `-available` tokens were present, and a message whose token
count does not exceed `available` is left untouched even if the total is
still over budget. -/
theorem C4_truncation_slice (enc : Encoding) (messages : List Message)
    (maxT : Nat) (ctx : Option (List String)) (sys others1 : List Message)
    (last : Message)
    (hsys : sys = messages.filter (fun m => m.role == "system"))
    (hoth : others1 = dropOldest enc sys ctx maxT
      (messages.filter (fun m => m.role != "system")))
    (h0 : maxT < estimate_prompt_tokens enc messages ctx)
    (h1 : maxT < estimate_prompt_tokens enc (sys ++ others1) ctx)
    (h2 : others1.getLast? = some last)
    (h3 : availableFor sys.length maxT < ((enc.encode last.content).length : Int)) :
    (fit_within_context enc messages maxT "truncate" ctx).1 =
      sys ++ (others1.dropLast ++
        [{ last with content :=
            enc.decode (pySliceTo (enc.encode last.content) (availableFor sys.length maxT)) ++
              "... [truncated]" }]) := by
  subst hoth
  subst hsys
  rw [fit_truncate_eq enc messages maxT ctx h0]
  dsimp only
  rw [truncatePhase_eq_of_over enc _ ctx maxT _ last h1 h2,
    contentTruncate_eq_of_long enc _ maxT last h3]

/-- Witness for the amended C4: a ten-token user message against a budget of
15 has `available = 8 ≥ 0` and is cut to its first 8 tokens plus marker. -/
theorem C4_truncation_slice_witness :
    15 < estimate_prompt_tokens encChar [⟨"user", "aaaaaaaaaa"⟩] none ∧
    availableFor 0 15 < ((encChar.encode "aaaaaaaaaa").length : Int) ∧
    (fit_within_context encChar [⟨"user", "aaaaaaaaaa"⟩] 15 "truncate" none).1 =
      [⟨"user", "aaaaaaaa... [truncated]"⟩] := by
  refine ⟨by decide, by decide, ?_⟩
  have h := C4_truncation_slice encChar [⟨"user", "aaaaaaaaaa"⟩] 15 none
    [] [⟨"user", "aaaaaaaaaa"⟩] ⟨"user", "aaaaaaaaaa"⟩
    (by decide) (by decide) (by decide) (by decide) (by decide) (by decide)
  exact h.trans (by decide)

/-- Counterexample to C4 as stated: with one 10-token user message and a
budget of 5, `available = -2 ≤ 0`, so per the claim the truncated content may
only become the bare marker; the code's Python slice `tokens[:-2]` instead
keeps the first 8 tokens, so the resulting content is not the bare marker
and is not "the first available token-units" of a non-positive budget. -/
theorem C4_counterexample :
    availableFor 0 5 = -2 ∧
    (fit_within_context encChar [⟨"user", "aaaaaaaaaa"⟩] 5 "truncate" none).1 =
      [⟨"user", "aaaaaaaa... [truncated]"⟩] ∧
    "aaaaaaaa... [truncated]" ≠ "... [truncated]" := by
  decide

end TokenUtils

namespace TokenUtils

/-- C5: under the truncate strategy on an over-budget input, the fitter never
removes a system-role message (the system partition of the output equals that
of the input); it removes non-system messages oldest-first only — the
surviving non-system messages are the `drop k` suffix of the input's
non-system partition, with at most the last one's content rewritten and all
roles preserved; each of the `k` drops happened while the estimate still
exceeded the budget, the last non-system message is never dropped, and
`messages_removed` reports exactly `k`; in particular, for
`[system, user_1, assistant_1, user_2]` sized so that dropping `user_1` and
`assistant_1` suffices, the result is `[system, user_2]` with
`messages_removed = 2`. -/
theorem C5_truncate_oldest_first :
    (∀ (enc : Encoding) (messages : List Message) (maxT : Nat) (ctx : Option (List String)),
      maxT < estimate_prompt_tokens enc messages ctx →
      ((fit_within_context enc messages maxT "truncate" ctx).1.filter
          (fun m => m.role == "system") =
        messages.filter (fun m => m.role == "system")) ∧
      (∃ k, (fit_within_context enc messages maxT "truncate" ctx).2.2.messages_removed = some k ∧
        k ≤ (messages.filter (fun m => m.role != "system")).length ∧
        (messages.filter (fun m => m.role != "system") ≠ [] →
          k < (messages.filter (fun m => m.role != "system")).length) ∧
        (∀ j < k, maxT < estimate_prompt_tokens enc
          (messages.filter (fun m => m.role == "system") ++
            (messages.filter (fun m => m.role != "system")).drop j) ctx) ∧
        ((fit_within_context enc messages maxT "truncate" ctx).1.filter
            (fun m => m.role != "system")).dropLast =
          ((messages.filter (fun m => m.role != "system")).drop k).dropLast ∧
        ((fit_within_context enc messages maxT "truncate" ctx).1.filter
            (fun m => m.role != "system")).map Message.role =
          ((messages.filter (fun m => m.role != "system")).drop k).map Message.role)) ∧
    fit_within_context encChar
        [⟨"system", "aaaaaaaaaa"⟩, ⟨"user", "aaaaaaaaaa"⟩,
         ⟨"assistant", "aaaaaaaaaa"⟩, ⟨"user", "aaaaaaaaaa"⟩] 35 "truncate" none =
      ([⟨"system", "aaaaaaaaaa"⟩, ⟨"user", "aaaaaaaaaa"⟩], none,
       { overflow := true
         original_tokens := some 59
         strategy := some "truncate"
         messages_removed := some 2 }) := by
  constructor
  · intro enc messages maxT ctx h
    rw [fit_truncate_eq enc messages maxT ctx h]
    dsimp only
    obtain ⟨k, hk, hk1, hk2, hk3⟩ := dropOldest_drop enc
      (messages.filter (fun m => m.role == "system")) ctx maxT
      (messages.filter (fun m => m.role != "system"))
    have hnon1 : ∀ m ∈ dropOldest enc (messages.filter (fun m => m.role == "system")) ctx maxT
        (messages.filter (fun m => m.role != "system")), (m.role == "system") = false :=
      fun m hm => roleNe_of_mem_filter (mem_dropOldest hm)
    have hnon2 : ∀ m ∈ truncatePhase enc (messages.filter (fun m => m.role == "system")) ctx maxT
        (dropOldest enc (messages.filter (fun m => m.role == "system")) ctx maxT
          (messages.filter (fun m => m.role != "system"))),
        (m.role == "system") = false :=
      truncatePhase_nonSystem enc _ ctx maxT _ hnon1
    have hfsys : ∀ (l2 : List Message), (∀ m ∈ l2, (m.role == "system") = false) →
        (messages.filter (fun m => m.role == "system") ++ l2).filter
          (fun m => m.role == "system") = messages.filter (fun m => m.role == "system") := by
      intro l2 h2
      rw [List.filter_append]
      have ha : (messages.filter (fun m => m.role == "system")).filter
          (fun m => m.role == "system") = messages.filter (fun m => m.role == "system") := by
        rw [List.filter_eq_self]
        intro a ha
        exact (List.mem_filter.mp ha).2
      have hb : l2.filter (fun m => m.role == "system") = [] := by
        rw [List.filter_eq_nil_iff]
        intro a ha
        simp [h2 a ha]
      rw [ha, hb, List.append_nil]
    have hfoth : ∀ (l2 : List Message), (∀ m ∈ l2, (m.role == "system") = false) →
        (messages.filter (fun m => m.role == "system") ++ l2).filter
          (fun m => m.role != "system") = l2 := by
      intro l2 h2
      rw [List.filter_append]
      have ha : (messages.filter (fun m => m.role == "system")).filter
          (fun m => m.role != "system") = [] := by
        rw [List.filter_eq_nil_iff]
        intro a ha
        have h := (List.mem_filter.mp ha).2
        simp [bne, h]
      have hb : l2.filter (fun m => m.role != "system") = l2 := by
        rw [List.filter_eq_self]
        intro a ha
        have h := h2 a ha
        simp [bne, h]
      rw [ha, hb, List.nil_append]
    refine ⟨hfsys _ hnon2, k, ?_, hk1, hk2, hk3, ?_, ?_⟩
    · have hlenfilters := length_filter_partition (fun m => m.role == "system") messages
      have hlen2 : (truncatePhase enc (messages.filter (fun m => m.role == "system")) ctx maxT
          (dropOldest enc (messages.filter (fun m => m.role == "system")) ctx maxT
            (messages.filter (fun m => m.role != "system")))).length =
          (messages.filter (fun m => m.role != "system")).length - k := by
        rw [truncatePhase_length, hk, List.length_drop]
      have hbne : (messages.filter (fun m => !(m.role == "system"))).length =
          (messages.filter (fun m => m.role != "system")).length := by
        simp only [bne]
      rw [hlen2]
      have : messages.length - (messages.filter (fun m => m.role == "system")).length -
          ((messages.filter (fun m => m.role != "system")).length - k) = k := by omega
      rw [this]
    · rw [hfoth _ hnon2, truncatePhase_dropLast, hk]
    · rw [hfoth _ hnon2, truncatePhase_map_role, hk]
  · decide

/-- Witness for C5 at the concrete four-message scenario. -/
theorem C5_truncate_oldest_first_witness :
    35 < estimate_prompt_tokens encChar
        [⟨"system", "aaaaaaaaaa"⟩, ⟨"user", "aaaaaaaaaa"⟩,
         ⟨"assistant", "aaaaaaaaaa"⟩, ⟨"user", "aaaaaaaaaa"⟩] none ∧
    ((fit_within_context encChar
        [⟨"system", "aaaaaaaaaa"⟩, ⟨"user", "aaaaaaaaaa"⟩,
         ⟨"assistant", "aaaaaaaaaa"⟩, ⟨"user", "aaaaaaaaaa"⟩] 35 "truncate" none).1.filter
          (fun m => m.role == "system") =
      [⟨"system", "aaaaaaaaaa"⟩, ⟨"user", "aaaaaaaaaa"⟩,
       ⟨"assistant", "aaaaaaaaaa"⟩, ⟨"user", "aaaaaaaaaa"⟩].filter
          (fun m => m.role == "system")) :=
  ⟨by decide,
   (C5_truncate_oldest_first.1 encChar
      [⟨"system", "aaaaaaaaaa"⟩, ⟨"user", "aaaaaaaaaa"⟩,
       ⟨"assistant", "aaaaaaaaaa"⟩, ⟨"user", "aaaaaaaaaa"⟩] 35 none (by decide)).1⟩

end TokenUtils
